import Mathlib

/-!
Shallow embedding of `src/sentry/eventstream/kafka/state.py`: the
`SynchronizedPartitionStateManager` state machine tracking the progress of a
local Kafka consumer relative to a remote consumer.

Modelling notes:
* `self.partitions` is a `collections.defaultdict`, so a plain subscript
  access inserts the default record for an absent key; the store is embedded
  as an association list to make that insertion observable.
* The module targets Python 2, where `None` compares below every integer, so
  `x < None` is `False` and `x >= None` is `True`; the helpers `py2_lt_opt`
  and `py2_ge_opt` reproduce this.
* Raised exceptions become explicit `error` fields of the result; log calls
  become an explicit list of `LogEvent`s; the injected callback becomes an
  explicit list of `CallbackCall`s (each element one synchronous invocation).
-/

/-- The four explicit states of the `PartitionState` class. -/
inductive PartitionState where
  | SYNCHRONIZED
  | LOCAL_BEHIND
  | REMOTE_BEHIND
  | UNKNOWN
deriving DecidableEq

/-- The `Offsets` namedtuple: the local and the remote side, each possibly
`None` (not yet observed). `local` is a Lean keyword, hence the field `loc`. -/
structure Offsets where
  loc : Option Int
  remote : Option Int
deriving DecidableEq

/-- A partition record: `(state, offsets)`. The state component is `None`
in Python before the first update, hence `Option PartitionState`. -/
abbrev Record := Option PartitionState × Offsets

/-- A partition key: `(topic, partition)`. -/
abbrev Key := String × Int

/-- The record produced by the `defaultdict` factory:
`(None, Offsets(None, None))`. -/
def defaultRecord : Record := (none, ⟨none, none⟩)

/-- `self.partitions`, as an association list (first match wins; fresh keys
are appended, mirroring insertion into a Python dict). -/
abbrev Store := List (Key × Record)

def store_lookup : Store → Key → Option Record
  | [], _ => none
  | (k', r) :: rest, k => if k' = k then some r else store_lookup rest k

def store_set : Store → Key → Record → Store
  | [], k, r => [(k, r)]
  | (k', r') :: rest, k, r =>
      if k' = k then (k, r) :: rest else (k', r') :: store_set rest k r

/-- `self.partitions[key]` on a `defaultdict`: the stored record, with the
default record inserted first when the key is absent. -/
def dd_getitem (s : Store) (k : Key) : Record × Store :=
  match store_lookup s k with
  | some r => (r, s)
  | none => (defaultRecord, s ++ [(k, defaultRecord)])

/-- The value observed for a key: the stored record, or the default record
for an absent key. -/
def store_get (s : Store) (k : Key) : Record :=
  (store_lookup s k).getD defaultRecord

/-- Python 2 `x < y` where `y` may be `None` (`None` sorts below all ints). -/
def py2_lt_opt (x : Int) : Option Int → Bool
  | none => false
  | some y => x < y

/-- Python 2 `x >= y` where `y` may be `None`. -/
def py2_ge_opt (x : Int) : Option Int → Bool
  | none => true
  | some y => y ≤ x

/-- `SynchronizedPartitionStateManager.transitions`: from-state (with `none`
the pre-initialization state) to the permitted to-states. -/
def transitions : Option PartitionState → List PartitionState
  | none => [PartitionState.UNKNOWN]
  | some PartitionState.UNKNOWN =>
      [PartitionState.LOCAL_BEHIND, PartitionState.REMOTE_BEHIND,
        PartitionState.SYNCHRONIZED]
  | some PartitionState.REMOTE_BEHIND =>
      [PartitionState.LOCAL_BEHIND, PartitionState.SYNCHRONIZED]
  | some PartitionState.LOCAL_BEHIND =>
      [PartitionState.SYNCHRONIZED, PartitionState.REMOTE_BEHIND]
  | some PartitionState.SYNCHRONIZED =>
      [PartitionState.LOCAL_BEHIND, PartitionState.REMOTE_BEHIND]

/-- `get_state_from_offsets`: derive the partition state by comparing the
local and remote offsets. -/
def get_state_from_offsets (offsets : Offsets) : PartitionState :=
  match offsets.loc, offsets.remote with
  | none, _ => PartitionState.UNKNOWN
  | _, none => PartitionState.UNKNOWN
  | some l, some r =>
      if l < r then PartitionState.LOCAL_BEHIND
      else if r < l then PartitionState.REMOTE_BEHIND
      else PartitionState.SYNCHRONIZED

/-- The log calls the module can emit, with their arguments. -/
inductive LogEvent where
  | localOffsetMovedBackwards (current previous : Int)
  | remoteOffsetMovedBackwards (current previous : Int)
  | remoteBehindWarning (loc remote : Option Int)
  | priorToLocalWarning
deriving DecidableEq

/-- One synchronous invocation of the injected callback, with its exact
arguments. -/
structure CallbackCall where
  topic : String
  partition : Int
  previous : Option PartitionState × Offsets
  updated : PartitionState × Offsets
deriving DecidableEq

/-- Result of `set_local_offset` / `set_remote_offset`: the raised
`InvalidStateTransition` (as its from/to pair) if any, the mapping after the
call, the callback invocations, and the log messages, in order. -/
structure SetResult where
  error : Option (Option PartitionState × PartitionState)
  partitions : Store
  callbacks : List CallbackCall
  logs : List LogEvent
deriving DecidableEq

/-- The two exceptions `validate_local_message` can raise. -/
inductive ValidateError where
  | invalidState
  | messageNotReady
deriving DecidableEq

/-- Result of `validate_local_message`. -/
structure ValidateResult where
  error : Option ValidateError
  partitions : Store
  logs : List LogEvent
deriving DecidableEq

/-- The offsets pair built by `set_local_offset`:
`Offsets(local_offset, previous_offsets.remote)`. -/
def updated_local (previous_offsets : Offsets) (local_offset : Int) : Offsets :=
  ⟨some local_offset, previous_offsets.remote⟩

/-- The offsets pair built by `set_remote_offset`:
`Offsets(previous_offsets.local, remote_offset)`. -/
def updated_remote (previous_offsets : Offsets) (remote_offset : Int) : Offsets :=
  ⟨previous_offsets.loc, some remote_offset⟩

/-- `set_local_offset`: update the local offset for a topic and partition,
logging a backward move, validating the state transition, storing the new
record, and invoking the callback on a state change. -/
def set_local_offset (s : Store) (topic : String) (partition : Int)
    (local_offset : Int) : SetResult :=
  match dd_getitem s (topic, partition) with
  | ((previous_state, previous_offsets), s1) =>
    let backLogs : List LogEvent :=
      if py2_lt_opt local_offset previous_offsets.loc then
        [LogEvent.localOffsetMovedBackwards local_offset
          (previous_offsets.loc.getD 0)]
      else []
    let updated_offsets : Offsets := updated_local previous_offsets local_offset
    let updated_state := get_state_from_offsets updated_offsets
    if previous_state ≠ some updated_state ∧
        updated_state ∉ transitions previous_state then
      { error := some (previous_state, updated_state), partitions := s1,
        callbacks := [], logs := backLogs }
    else
      let s2 := store_set s1 (topic, partition) (some updated_state, updated_offsets)
      if previous_state ≠ some updated_state then
        { error := none, partitions := s2,
          callbacks := [⟨topic, partition, (previous_state, previous_offsets),
            (updated_state, updated_offsets)⟩],
          logs := backLogs ++
            (if updated_state = PartitionState.REMOTE_BEHIND then
              [LogEvent.remoteBehindWarning updated_offsets.loc
                updated_offsets.remote]
             else []) }
      else
        { error := none, partitions := s2, callbacks := [], logs := backLogs }

/-- `set_remote_offset`: symmetric to `set_local_offset`, updating the remote
side (and without the `REMOTE_BEHIND` warning, which only the local path
logs). -/
def set_remote_offset (s : Store) (topic : String) (partition : Int)
    (remote_offset : Int) : SetResult :=
  match dd_getitem s (topic, partition) with
  | ((previous_state, previous_offsets), s1) =>
    let backLogs : List LogEvent :=
      if py2_lt_opt remote_offset previous_offsets.remote then
        [LogEvent.remoteOffsetMovedBackwards remote_offset
          (previous_offsets.remote.getD 0)]
      else []
    let updated_offsets : Offsets := updated_remote previous_offsets remote_offset
    let updated_state := get_state_from_offsets updated_offsets
    if previous_state ≠ some updated_state ∧
        updated_state ∉ transitions previous_state then
      { error := some (previous_state, updated_state), partitions := s1,
        callbacks := [], logs := backLogs }
    else
      let s2 := store_set s1 (topic, partition) (some updated_state, updated_offsets)
      if previous_state ≠ some updated_state then
        { error := none, partitions := s2,
          callbacks := [⟨topic, partition, (previous_state, previous_offsets),
            (updated_state, updated_offsets)⟩],
          logs := backLogs }
      else
        { error := none, partitions := s2, callbacks := [], logs := backLogs }

/-- `validate_local_message`: check whether a message at `offset` may be
consumed by the local consumer. -/
def validate_local_message (s : Store) (topic : String) (partition : Int)
    (offset : Int) : ValidateResult :=
  match dd_getitem s (topic, partition) with
  | ((state, offsets), s1) =>
    if state ≠ some PartitionState.LOCAL_BEHIND then
      { error := some ValidateError.invalidState, partitions := s1, logs := [] }
    else if py2_ge_opt offset offsets.remote then
      { error := some ValidateError.messageNotReady, partitions := s1, logs := [] }
    else if py2_lt_opt offset offsets.loc then
      { error := none, partitions := s1, logs := [LogEvent.priorToLocalWarning] }
    else
      { error := none, partitions := s1, logs := [] }

/-- A single offset-update call on the store. -/
inductive Op where
  | setLocal (topic : String) (partition : Int) (offset : Int)
  | setRemote (topic : String) (partition : Int) (offset : Int)
deriving DecidableEq

def applyOp (s : Store) : Op → SetResult
  | Op.setLocal t p v => set_local_offset s t p v
  | Op.setRemote t p v => set_remote_offset s t p v

/-- Run a sequence of offset updates, stopping with `none` when a call raises
`InvalidStateTransition`. -/
def runOps : List Op → Store → Option Store
  | [], s => some s
  | op :: rest, s =>
    match (applyOp s op).error with
    | some _ => none
    | none => runOps rest (applyOp s op).partitions

/-- Every stored record is either the untouched default or has its state
equal to the state derived from its offsets. -/
def StoreInv (s : Store) : Prop :=
  ∀ k r, store_lookup s k = some r →
    r = defaultRecord ∨ r.1 = some (get_state_from_offsets r.2)

/-! ### Store lemmas -/

theorem dd_getitem_fst (s : Store) (k : Key) :
    (dd_getitem s k).1 = store_get s k := by
  unfold dd_getitem store_get
  cases store_lookup s k <;> rfl

theorem store_lookup_append_single (s : Store) (k k' : Key) (r : Record) :
    store_lookup (s ++ [(k, r)]) k' =
      match store_lookup s k' with
      | some v => some v
      | none => if k = k' then some r else none := by
  induction s with
  | nil => rfl
  | cons hd tl ih =>
      obtain ⟨kh, rh⟩ := hd
      by_cases h : kh = k'
      · simp [store_lookup, h]
      · simp [store_lookup, h, ih]

theorem store_lookup_set_self (s : Store) (k : Key) (r : Record) :
    store_lookup (store_set s k r) k = some r := by
  induction s with
  | nil => simp [store_set, store_lookup]
  | cons hd tl ih =>
      obtain ⟨kh, rh⟩ := hd
      by_cases h : kh = k
      · simp [store_set, store_lookup, h]
      · simp [store_set, store_lookup, h, ih]

theorem store_lookup_set_other (s : Store) (k k' : Key) (r : Record)
    (h : k' ≠ k) :
    store_lookup (store_set s k r) k' = store_lookup s k' := by
  induction s with
  | nil => simp [store_set, store_lookup, Ne.symm h]
  | cons hd tl ih =>
      obtain ⟨kh, rh⟩ := hd
      by_cases hk : kh = k
      · subst hk
        simp [store_set, store_lookup, Ne.symm h]
      · by_cases hk' : kh = k'
        · subst hk'
          simp [store_set, store_lookup, hk]
        · simp [store_set, store_lookup, hk, hk', ih]

theorem store_get_dd (s : Store) (k k' : Key) :
    store_get (dd_getitem s k).2 k' = store_get s k' := by
  unfold dd_getitem
  cases h : store_lookup s k with
  | some r => rfl
  | none =>
      simp only [store_get, store_lookup_append_single]
      cases h' : store_lookup s k' with
      | some v => rfl
      | none =>
          by_cases hk : k = k'
          · subst hk
            simp [h, defaultRecord]
          · simp [hk]

theorem store_lookup_dd_other (s : Store) (k k' : Key) (h : k' ≠ k) :
    store_lookup (dd_getitem s k).2 k' = store_lookup s k' := by
  unfold dd_getitem
  cases hL : store_lookup s k with
  | some r => rfl
  | none =>
      simp only [store_lookup_append_single]
      cases h' : store_lookup s k' with
      | some v => rfl
      | none => simp [h', Ne.symm h]

/-- Unfolding lemma for `set_local_offset` in terms of the observed record. -/
theorem set_local_offset_eq (s : Store) (t : String) (p v : Int)
    (ps : Option PartitionState) (o : Offsets)
    (hrec : store_get s (t, p) = (ps, o)) :
    set_local_offset s t p v =
      (if ps ≠ some (get_state_from_offsets (updated_local o v)) ∧
          get_state_from_offsets (updated_local o v) ∉ transitions ps then
         { error := some (ps, get_state_from_offsets (updated_local o v)),
           partitions := (dd_getitem s (t, p)).2,
           callbacks := [],
           logs := if py2_lt_opt v o.loc then
               [LogEvent.localOffsetMovedBackwards v (o.loc.getD 0)]
             else [] }
       else if ps ≠ some (get_state_from_offsets (updated_local o v)) then
         { error := none,
           partitions := store_set (dd_getitem s (t, p)).2 (t, p)
             (some (get_state_from_offsets (updated_local o v)),
              updated_local o v),
           callbacks := [⟨t, p, (ps, o),
             (get_state_from_offsets (updated_local o v), updated_local o v)⟩],
           logs := (if py2_lt_opt v o.loc then
               [LogEvent.localOffsetMovedBackwards v (o.loc.getD 0)]
             else []) ++
             (if get_state_from_offsets (updated_local o v) =
                 PartitionState.REMOTE_BEHIND then
               [LogEvent.remoteBehindWarning (updated_local o v).loc
                 (updated_local o v).remote]
              else []) }
       else
         { error := none,
           partitions := store_set (dd_getitem s (t, p)).2 (t, p)
             (some (get_state_from_offsets (updated_local o v)),
              updated_local o v),
           callbacks := [],
           logs := if py2_lt_opt v o.loc then
               [LogEvent.localOffsetMovedBackwards v (o.loc.getD 0)]
             else [] }) := by
  have h1 : (dd_getitem s (t, p)).1 = (ps, o) :=
    (dd_getitem_fst s (t, p)).trans hrec
  rcases hdd : dd_getitem s (t, p) with ⟨⟨ps', o'⟩, s1⟩
  rw [hdd] at h1
  obtain ⟨hps, ho⟩ := Prod.mk.injEq .. ▸ h1
  subst hps ho
  unfold set_local_offset
  rw [hdd]

/-- Unfolding lemma for `set_remote_offset` in terms of the observed record. -/
theorem set_remote_offset_eq (s : Store) (t : String) (p v : Int)
    (ps : Option PartitionState) (o : Offsets)
    (hrec : store_get s (t, p) = (ps, o)) :
    set_remote_offset s t p v =
      (if ps ≠ some (get_state_from_offsets (updated_remote o v)) ∧
          get_state_from_offsets (updated_remote o v) ∉ transitions ps then
         { error := some (ps, get_state_from_offsets (updated_remote o v)),
           partitions := (dd_getitem s (t, p)).2,
           callbacks := [],
           logs := if py2_lt_opt v o.remote then
               [LogEvent.remoteOffsetMovedBackwards v (o.remote.getD 0)]
             else [] }
       else if ps ≠ some (get_state_from_offsets (updated_remote o v)) then
         { error := none,
           partitions := store_set (dd_getitem s (t, p)).2 (t, p)
             (some (get_state_from_offsets (updated_remote o v)),
              updated_remote o v),
           callbacks := [⟨t, p, (ps, o),
             (get_state_from_offsets (updated_remote o v), updated_remote o v)⟩],
           logs := if py2_lt_opt v o.remote then
               [LogEvent.remoteOffsetMovedBackwards v (o.remote.getD 0)]
             else [] }
       else
         { error := none,
           partitions := store_set (dd_getitem s (t, p)).2 (t, p)
             (some (get_state_from_offsets (updated_remote o v)),
              updated_remote o v),
           callbacks := [],
           logs := if py2_lt_opt v o.remote then
               [LogEvent.remoteOffsetMovedBackwards v (o.remote.getD 0)]
             else [] }) := by
  have h1 : (dd_getitem s (t, p)).1 = (ps, o) :=
    (dd_getitem_fst s (t, p)).trans hrec
  rcases hdd : dd_getitem s (t, p) with ⟨⟨ps', o'⟩, s1⟩
  rw [hdd] at h1
  obtain ⟨hps, ho⟩ := Prod.mk.injEq .. ▸ h1
  subst hps ho
  unfold set_remote_offset
  rw [hdd]

/-- Unfolding lemma for `validate_local_message`. -/
theorem validate_local_message_eq (s : Store) (t : String) (p off : Int)
    (ps : Option PartitionState) (o : Offsets)
    (hrec : store_get s (t, p) = (ps, o)) :
    validate_local_message s t p off =
      (if ps ≠ some PartitionState.LOCAL_BEHIND then
         { error := some ValidateError.invalidState,
           partitions := (dd_getitem s (t, p)).2, logs := [] }
       else if py2_ge_opt off o.remote then
         { error := some ValidateError.messageNotReady,
           partitions := (dd_getitem s (t, p)).2, logs := [] }
       else if py2_lt_opt off o.loc then
         { error := none, partitions := (dd_getitem s (t, p)).2,
           logs := [LogEvent.priorToLocalWarning] }
       else
         { error := none, partitions := (dd_getitem s (t, p)).2, logs := [] }) := by
  have h1 : (dd_getitem s (t, p)).1 = (ps, o) :=
    (dd_getitem_fst s (t, p)).trans hrec
  rcases hdd : dd_getitem s (t, p) with ⟨⟨ps', o'⟩, s1⟩
  rw [hdd] at h1
  obtain ⟨hps, ho⟩ := Prod.mk.injEq .. ▸ h1
  subst hps ho
  unfold validate_local_message
  rw [hdd]

theorem set_local_error_eq (s : Store) (t : String) (p v : Int)
    (ps : Option PartitionState) (o : Offsets)
    (hrec : store_get s (t, p) = (ps, o)) :
    (set_local_offset s t p v).error =
      if ps ≠ some (get_state_from_offsets (updated_local o v)) ∧
          get_state_from_offsets (updated_local o v) ∉ transitions ps then
        some (ps, get_state_from_offsets (updated_local o v))
      else none := by
  rw [set_local_offset_eq s t p v ps o hrec]
  split_ifs <;> rfl

theorem set_local_partitions_eq (s : Store) (t : String) (p v : Int)
    (ps : Option PartitionState) (o : Offsets)
    (hrec : store_get s (t, p) = (ps, o)) :
    (set_local_offset s t p v).partitions =
      if ps ≠ some (get_state_from_offsets (updated_local o v)) ∧
          get_state_from_offsets (updated_local o v) ∉ transitions ps then
        (dd_getitem s (t, p)).2
      else
        store_set (dd_getitem s (t, p)).2 (t, p)
          (some (get_state_from_offsets (updated_local o v)), updated_local o v) := by
  rw [set_local_offset_eq s t p v ps o hrec]
  split_ifs <;> rfl

theorem set_local_callbacks_eq (s : Store) (t : String) (p v : Int)
    (ps : Option PartitionState) (o : Offsets)
    (hrec : store_get s (t, p) = (ps, o)) :
    (set_local_offset s t p v).callbacks =
      if ps ≠ some (get_state_from_offsets (updated_local o v)) ∧
          get_state_from_offsets (updated_local o v) ∉ transitions ps then []
      else if ps ≠ some (get_state_from_offsets (updated_local o v)) then
        [⟨t, p, (ps, o),
          (get_state_from_offsets (updated_local o v), updated_local o v)⟩]
      else [] := by
  rw [set_local_offset_eq s t p v ps o hrec]
  split_ifs <;> rfl

theorem set_local_logs_head (s : Store) (t : String) (p v : Int)
    (ps : Option PartitionState) (o : Offsets)
    (hrec : store_get s (t, p) = (ps, o)) (p0 : Int)
    (hl : o.loc = some p0) (hv : v < p0) :
    (set_local_offset s t p v).logs.head? =
      some (LogEvent.localOffsetMovedBackwards v p0) := by
  rw [set_local_offset_eq s t p v ps o hrec, hl]
  have hlt : py2_lt_opt v (some p0) = true := by
    simp [py2_lt_opt, hv]
  split_ifs <;> simp [hlt]

theorem set_remote_error_eq (s : Store) (t : String) (p v : Int)
    (ps : Option PartitionState) (o : Offsets)
    (hrec : store_get s (t, p) = (ps, o)) :
    (set_remote_offset s t p v).error =
      if ps ≠ some (get_state_from_offsets (updated_remote o v)) ∧
          get_state_from_offsets (updated_remote o v) ∉ transitions ps then
        some (ps, get_state_from_offsets (updated_remote o v))
      else none := by
  rw [set_remote_offset_eq s t p v ps o hrec]
  split_ifs <;> rfl

theorem set_remote_partitions_eq (s : Store) (t : String) (p v : Int)
    (ps : Option PartitionState) (o : Offsets)
    (hrec : store_get s (t, p) = (ps, o)) :
    (set_remote_offset s t p v).partitions =
      if ps ≠ some (get_state_from_offsets (updated_remote o v)) ∧
          get_state_from_offsets (updated_remote o v) ∉ transitions ps then
        (dd_getitem s (t, p)).2
      else
        store_set (dd_getitem s (t, p)).2 (t, p)
          (some (get_state_from_offsets (updated_remote o v)), updated_remote o v) := by
  rw [set_remote_offset_eq s t p v ps o hrec]
  split_ifs <;> rfl

theorem set_remote_callbacks_eq (s : Store) (t : String) (p v : Int)
    (ps : Option PartitionState) (o : Offsets)
    (hrec : store_get s (t, p) = (ps, o)) :
    (set_remote_offset s t p v).callbacks =
      if ps ≠ some (get_state_from_offsets (updated_remote o v)) ∧
          get_state_from_offsets (updated_remote o v) ∉ transitions ps then []
      else if ps ≠ some (get_state_from_offsets (updated_remote o v)) then
        [⟨t, p, (ps, o),
          (get_state_from_offsets (updated_remote o v), updated_remote o v)⟩]
      else [] := by
  rw [set_remote_offset_eq s t p v ps o hrec]
  split_ifs <;> rfl

theorem set_remote_logs_head (s : Store) (t : String) (p v : Int)
    (ps : Option PartitionState) (o : Offsets)
    (hrec : store_get s (t, p) = (ps, o)) (r0 : Int)
    (hr : o.remote = some r0) (hv : v < r0) :
    (set_remote_offset s t p v).logs.head? =
      some (LogEvent.remoteOffsetMovedBackwards v r0) := by
  rw [set_remote_offset_eq s t p v ps o hrec, hr]
  have hlt : py2_lt_opt v (some r0) = true := by
    simp [py2_lt_opt, hv]
  split_ifs <;> simp [hlt]

/-! ### Transition-table lemmas -/

theorem derive_remote_none (lo : Option Int) :
    get_state_from_offsets ⟨lo, none⟩ = PartitionState.UNKNOWN := by
  cases lo <;> rfl

theorem derive_loc_none (ro : Option Int) :
    get_state_from_offsets ⟨none, ro⟩ = PartitionState.UNKNOWN := by
  cases ro <;> rfl

theorem derive_both_ne_unknown (l r : Int) :
    get_state_from_offsets ⟨some l, some r⟩ ≠ PartitionState.UNKNOWN := by
  unfold get_state_from_offsets
  dsimp only
  split_ifs <;> simp

theorem compare_trans_mem (a b : PartitionState)
    (ha : a ≠ PartitionState.UNKNOWN) (hb : b ≠ PartitionState.UNKNOWN) :
    a = b ∨ b ∈ transitions (some a) := by
  cases a <;> cases b <;> revert ha hb <;> decide

theorem unknown_trans_mem (b : PartitionState)
    (hb : b ≠ PartitionState.UNKNOWN) :
    b ∈ transitions (some PartitionState.UNKNOWN) := by
  cases b <;> revert hb <;> decide

/-- From a record satisfying the store invariant, the state derived after a
local-offset update is always the previous state or a permitted successor. -/
theorem set_local_trans_ok (ps : Option PartitionState) (o : Offsets) (v : Int)
    (h : (ps, o) = defaultRecord ∨ ps = some (get_state_from_offsets o)) :
    ps = some (get_state_from_offsets (updated_local o v)) ∨
      get_state_from_offsets (updated_local o v) ∈ transitions ps := by
  obtain ⟨lo, ro⟩ := o
  rcases h with h | h
  · obtain ⟨h1, h2⟩ := Prod.mk.injEq .. ▸ h
    obtain ⟨hl, hr⟩ := Offsets.mk.injEq .. ▸ h2
    subst h1 hl hr
    right
    simp [updated_local, derive_remote_none, transitions]
  · subst h
    cases ro with
    | none =>
        left
        simp [updated_local, derive_remote_none]
    | some rv =>
        cases lo with
        | none =>
            right
            exact unknown_trans_mem _ (derive_both_ne_unknown v rv)
        | some lv =>
            rcases compare_trans_mem (get_state_from_offsets ⟨some lv, some rv⟩)
                (get_state_from_offsets ⟨some v, some rv⟩)
                (derive_both_ne_unknown lv rv) (derive_both_ne_unknown v rv) with
              heq | hmem
            · left; exact congrArg some heq
            · right; exact hmem

/-- Symmetric fact for a remote-offset update. -/
theorem set_remote_trans_ok (ps : Option PartitionState) (o : Offsets) (v : Int)
    (h : (ps, o) = defaultRecord ∨ ps = some (get_state_from_offsets o)) :
    ps = some (get_state_from_offsets (updated_remote o v)) ∨
      get_state_from_offsets (updated_remote o v) ∈ transitions ps := by
  obtain ⟨lo, ro⟩ := o
  rcases h with h | h
  · obtain ⟨h1, h2⟩ := Prod.mk.injEq .. ▸ h
    obtain ⟨hl, hr⟩ := Offsets.mk.injEq .. ▸ h2
    subst h1 hl hr
    right
    simp [updated_remote, derive_loc_none, transitions]
  · subst h
    cases lo with
    | none =>
        left
        simp [updated_remote, derive_loc_none]
    | some lv =>
        cases ro with
        | none =>
            right
            exact unknown_trans_mem _ (derive_both_ne_unknown lv v)
        | some rv =>
            rcases compare_trans_mem (get_state_from_offsets ⟨some lv, some rv⟩)
                (get_state_from_offsets ⟨some lv, some v⟩)
                (derive_both_ne_unknown lv rv) (derive_both_ne_unknown lv v) with
              heq | hmem
            · left; exact congrArg some heq
            · right; exact hmem

/-- `validate_local_message` returns the mapping produced by its single
`defaultdict` access, in every branch. -/
theorem validate_partitions_eq (s : Store) (t : String) (p off : Int) :
    (validate_local_message s t p off).partitions = (dd_getitem s (t, p)).2 := by
  rcases hrec : store_get s (t, p) with ⟨ps, o⟩
  rw [validate_local_message_eq s t p off ps o hrec]
  split_ifs <;> rfl

/-- A state-consistent (or default) record never trips the transition check
of `set_local_offset`. -/
theorem set_local_no_trans_error (ps : Option PartitionState) (o : Offsets)
    (v : Int)
    (h : (ps, o) = defaultRecord ∨ ps = some (get_state_from_offsets o)) :
    ¬(ps ≠ some (get_state_from_offsets (updated_local o v)) ∧
      get_state_from_offsets (updated_local o v) ∉ transitions ps) := by
  rcases set_local_trans_ok ps o v h with hc | hc
  · exact fun hx => hx.1 hc
  · exact fun hx => hx.2 hc

/-- A state-consistent (or default) record never trips the transition check
of `set_remote_offset`. -/
theorem set_remote_no_trans_error (ps : Option PartitionState) (o : Offsets)
    (v : Int)
    (h : (ps, o) = defaultRecord ∨ ps = some (get_state_from_offsets o)) :
    ¬(ps ≠ some (get_state_from_offsets (updated_remote o v)) ∧
      get_state_from_offsets (updated_remote o v) ∉ transitions ps) := by
  rcases set_remote_trans_ok ps o v h with hc | hc
  · exact fun hx => hx.1 hc
  · exact fun hx => hx.2 hc

/-- The record a store satisfying `StoreInv` observes for any key is the
default record or state-consistent. -/
theorem storeInv_get (s : Store) (k : Key) (h : StoreInv s)
    (ps : Option PartitionState) (o : Offsets)
    (hrec : store_get s k = (ps, o)) :
    (ps, o) = defaultRecord ∨ ps = some (get_state_from_offsets o) := by
  unfold store_get at hrec
  cases hL : store_lookup s k with
  | none =>
      rw [hL] at hrec
      exact Or.inl hrec.symm
  | some r =>
      rw [hL] at hrec
      have hrec2 : r = (ps, o) := hrec
      rcases h k r hL with hd | hd
      · exact Or.inl (hrec2 ▸ hd)
      · right
        rw [hrec2] at hd
        exact hd

theorem storeInv_dd (s : Store) (k : Key) (h : StoreInv s) :
    StoreInv (dd_getitem s k).2 := by
  unfold dd_getitem
  cases hL : store_lookup s k with
  | some r => exact h
  | none =>
      intro k' r' hk'
      rw [store_lookup_append_single] at hk'
      cases h2 : store_lookup s k' with
      | some rr =>
          rw [h2] at hk'
          exact h k' r' (h2.trans hk')
      | none =>
          rw [h2] at hk'
          split_ifs at hk' with hkk
          injection hk' with h3
          exact Or.inl h3.symm

theorem storeInv_set (s : Store) (k : Key) (r : Record) (h : StoreInv s)
    (hr : r = defaultRecord ∨ r.1 = some (get_state_from_offsets r.2)) :
    StoreInv (store_set s k r) := by
  intro k' r' hk'
  by_cases hkk : k' = k
  · subst hkk
    rw [store_lookup_set_self] at hk'
    injection hk' with h3
    exact h3 ▸ hr
  · rw [store_lookup_set_other _ _ _ _ hkk] at hk'
    exact h k' r' hk'

/-- On a store satisfying `StoreInv`, no set call raises. -/
theorem applyOp_no_error (s : Store) (op : Op) (h : StoreInv s) :
    (applyOp s op).error = none := by
  cases op with
  | setLocal t p v =>
      simp only [applyOp]
      rcases hrec : store_get s (t, p) with ⟨ps, o⟩
      rw [set_local_error_eq s t p v ps o hrec,
        if_neg (set_local_no_trans_error ps o v (storeInv_get s (t, p) h ps o hrec))]
  | setRemote t p v =>
      simp only [applyOp]
      rcases hrec : store_get s (t, p) with ⟨ps, o⟩
      rw [set_remote_error_eq s t p v ps o hrec,
        if_neg (set_remote_no_trans_error ps o v (storeInv_get s (t, p) h ps o hrec))]

/-- Set calls preserve `StoreInv`. -/
theorem applyOp_preserves_inv (s : Store) (op : Op) (h : StoreInv s) :
    StoreInv (applyOp s op).partitions := by
  cases op with
  | setLocal t p v =>
      simp only [applyOp]
      rcases hrec : store_get s (t, p) with ⟨ps, o⟩
      rw [set_local_partitions_eq s t p v ps o hrec]
      split_ifs with h1
      · exact storeInv_dd s (t, p) h
      · exact storeInv_set _ _ _ (storeInv_dd s (t, p) h) (Or.inr rfl)
  | setRemote t p v =>
      simp only [applyOp]
      rcases hrec : store_get s (t, p) with ⟨ps, o⟩
      rw [set_remote_partitions_eq s t p v ps o hrec]
      split_ifs with h1
      · exact storeInv_dd s (t, p) h
      · exact storeInv_set _ _ _ (storeInv_dd s (t, p) h) (Or.inr rfl)

/-- From any store satisfying `StoreInv`, running any sequence of set calls
never hits an error. -/
theorem runOps_inv_isSome (ops : List Op) :
    ∀ s, StoreInv s → (runOps ops s).isSome = true := by
  induction ops with
  | nil =>
      intro s _
      rfl
  | cons op rest ih =>
      intro s hs
      unfold runOps
      rw [applyOp_no_error s op hs]
      exact ih _ (applyOp_preserves_inv s op hs)

/-! ### Claim theorems -/

/-- C2: the state derivation function returns UNKNOWN if the local side or
the remote side is absent; when both sides are present it returns
LOCAL_BEHIND iff local < remote, REMOTE_BEHIND iff local > remote, and
SYNCHRONIZED iff local = remote. -/
theorem derive_spec (offsets : Offsets) :
    ((offsets.loc = none ∨ offsets.remote = none) →
        get_state_from_offsets offsets = PartitionState.UNKNOWN) ∧
    (∀ l r, offsets.loc = some l → offsets.remote = some r →
      ((get_state_from_offsets offsets = PartitionState.LOCAL_BEHIND ↔ l < r) ∧
       (get_state_from_offsets offsets = PartitionState.REMOTE_BEHIND ↔ r < l) ∧
       (get_state_from_offsets offsets = PartitionState.SYNCHRONIZED ↔ l = r))) := by
  obtain ⟨lo, ro⟩ := offsets
  constructor
  · rintro (h | h) <;> simp only at h <;> subst h
    · exact derive_loc_none ro
    · exact derive_remote_none lo
  · rintro l r hl hr
    simp only at hl hr
    subst hl
    subst hr
    unfold get_state_from_offsets
    dsimp only
    split_ifs with h1 h2 <;> refine ⟨?_, ?_, ?_⟩ <;> simp <;> omega

/-- Witness for C2: with local 3 and remote 5 both present, the derived
state is LOCAL_BEHIND. -/
theorem derive_spec_witness :
    get_state_from_offsets ⟨some 3, some 5⟩ = PartitionState.LOCAL_BEHIND :=
  ((derive_spec ⟨some 3, some 5⟩).2 3 5 rfl rfl).1.mpr (by decide)

/-- C1: `validate_local_message` succeeds iff the key's current state is
LOCAL_BEHIND and the offset is strictly below the stored remote offset; any
other state (NONE, UNKNOWN, SYNCHRONIZED, REMOTE_BEHIND) raises
InvalidState, and LOCAL_BEHIND with `offset >= remote` raises
MessageNotReady. -/
theorem validate_gate_iff (s : Store) (t : String) (p off : Int) :
    ((validate_local_message s t p off).error = none ↔
      ((store_get s (t, p)).1 = some PartitionState.LOCAL_BEHIND ∧
        ∃ ro, (store_get s (t, p)).2.remote = some ro ∧ off < ro)) ∧
    ((store_get s (t, p)).1 ≠ some PartitionState.LOCAL_BEHIND →
      (validate_local_message s t p off).error = some ValidateError.invalidState) ∧
    (∀ ro, (store_get s (t, p)).1 = some PartitionState.LOCAL_BEHIND →
      (store_get s (t, p)).2.remote = some ro → ro ≤ off →
      (validate_local_message s t p off).error = some ValidateError.messageNotReady) := by
  rcases hrec : store_get s (t, p) with ⟨ps, o⟩
  rw [validate_local_message_eq s t p off ps o hrec]
  obtain ⟨lo, ro⟩ := o
  split_ifs with h1 h2 h3 <;> cases ro <;>
    simp_all [py2_ge_opt, py2_lt_opt]

/-- Witness for C1: in LOCAL_BEHIND with remote offset 10, a message at
offset 7 is admitted. -/
theorem validate_gate_iff_witness :
    (validate_local_message
        [(("events", 0), (some PartitionState.LOCAL_BEHIND, ⟨some 5, some 10⟩))]
        "events" 0 7).error = none :=
  (validate_gate_iff
      [(("events", 0), (some PartitionState.LOCAL_BEHIND, ⟨some 5, some 10⟩))]
      "events" 0 7).1.mpr ⟨by decide, 10, by decide, by decide⟩

/-- C3: after any `set_local_offset` or `set_remote_offset` call that
completes without raising, the stored state for the key equals
`get_state_from_offsets` applied to the stored offsets pair; the state is
only ever stored together with the offsets it was derived from. -/
theorem state_matches_offsets (s : Store) (t : String) (p v : Int) :
    ((set_local_offset s t p v).error = none →
      ∃ st o, store_lookup (set_local_offset s t p v).partitions (t, p) =
          some (some st, o) ∧ st = get_state_from_offsets o) ∧
    ((set_remote_offset s t p v).error = none →
      ∃ st o, store_lookup (set_remote_offset s t p v).partitions (t, p) =
          some (some st, o) ∧ st = get_state_from_offsets o) := by
  constructor
  · rcases hrec : store_get s (t, p) with ⟨ps, o⟩
    rw [set_local_error_eq s t p v ps o hrec,
      set_local_partitions_eq s t p v ps o hrec]
    split_ifs with h1 <;> intro he
    · simp at he
    · exact ⟨get_state_from_offsets (updated_local o v), updated_local o v,
        store_lookup_set_self _ _ _, rfl⟩
  · rcases hrec : store_get s (t, p) with ⟨ps, o⟩
    rw [set_remote_error_eq s t p v ps o hrec,
      set_remote_partitions_eq s t p v ps o hrec]
    split_ifs with h1 <;> intro he
    · simp at he
    · exact ⟨get_state_from_offsets (updated_remote o v), updated_remote o v,
        store_lookup_set_self _ _ _, rfl⟩

/-- Witness for C3: a fresh key set to local offset 5 stores state UNKNOWN,
which is the state derived from the stored offsets. -/
theorem state_matches_offsets_witness :
    ∃ st o, store_lookup (set_local_offset [] "events" 0 5).partitions
        ("events", 0) = some (some st, o) ∧ st = get_state_from_offsets o :=
  (state_matches_offsets [] "events" 0 5).1 (by decide)

/-- C4: the set operations raise InvalidStateTransition exactly when the
state derived from the updated offsets differs from the previous state and
is not in the allowed-transition table entry for it; when they raise, the
record observed for every key is exactly what it was before the call. -/
theorem invalid_transition_spec (s : Store) (t : String) (p v : Int) :
    (((set_local_offset s t p v).error ≠ none ↔
        ((store_get s (t, p)).1 ≠
            some (get_state_from_offsets (updated_local (store_get s (t, p)).2 v)) ∧
          get_state_from_offsets (updated_local (store_get s (t, p)).2 v) ∉
            transitions (store_get s (t, p)).1)) ∧
      ((set_local_offset s t p v).error ≠ none →
        ∀ k, store_get (set_local_offset s t p v).partitions k = store_get s k)) ∧
    (((set_remote_offset s t p v).error ≠ none ↔
        ((store_get s (t, p)).1 ≠
            some (get_state_from_offsets (updated_remote (store_get s (t, p)).2 v)) ∧
          get_state_from_offsets (updated_remote (store_get s (t, p)).2 v) ∉
            transitions (store_get s (t, p)).1)) ∧
      ((set_remote_offset s t p v).error ≠ none →
        ∀ k, store_get (set_remote_offset s t p v).partitions k = store_get s k)) := by
  constructor
  · rcases hrec : store_get s (t, p) with ⟨ps, o⟩
    rw [set_local_error_eq s t p v ps o hrec,
      set_local_partitions_eq s t p v ps o hrec]
    split_ifs with h1
    · exact ⟨by simp [h1.1, h1.2], fun _ k => store_get_dd s (t, p) k⟩
    · exact ⟨iff_of_false (by simp) h1, fun hc => absurd rfl hc⟩
  · rcases hrec : store_get s (t, p) with ⟨ps, o⟩
    rw [set_remote_error_eq s t p v ps o hrec,
      set_remote_partitions_eq s t p v ps o hrec]
    split_ifs with h1
    · exact ⟨by simp [h1.1, h1.2], fun _ k => store_get_dd s (t, p) k⟩
    · exact ⟨iff_of_false (by simp) h1, fun hc => absurd rfl hc⟩

/-- Witness for C4: from a (hand-built) LOCAL_BEHIND record whose remote side
is absent, a local update derives UNKNOWN, which is not a permitted
successor, so the call raises and the record is unchanged. -/
theorem invalid_transition_spec_witness :
    store_get (set_local_offset
        [(("events", 0), (some PartitionState.LOCAL_BEHIND, ⟨some 5, none⟩))]
        "events" 0 7).partitions ("events", 0) =
      store_get [(("events", 0), (some PartitionState.LOCAL_BEHIND, ⟨some 5, none⟩))]
        ("events", 0) :=
  (invalid_transition_spec
      [(("events", 0), (some PartitionState.LOCAL_BEHIND, ⟨some 5, none⟩))]
      "events" 0 7).1.2 (by decide) ("events", 0)

/-- C5: on a successful set call the callback fires exactly once when the
derived state differs from the previous state, with arguments
`(topic, partition, (previousState, previousOffsets), (updatedState,
updatedOffsets))`, and does not fire when the derived state is unchanged. -/
theorem callback_spec (s : Store) (t : String) (p v : Int) :
    (((set_local_offset s t p v).error = none ∧
        (store_get s (t, p)).1 ≠
          some (get_state_from_offsets (updated_local (store_get s (t, p)).2 v)) →
      (set_local_offset s t p v).callbacks =
        [⟨t, p, store_get s (t, p),
          (get_state_from_offsets (updated_local (store_get s (t, p)).2 v),
           updated_local (store_get s (t, p)).2 v)⟩]) ∧
     ((store_get s (t, p)).1 =
          some (get_state_from_offsets (updated_local (store_get s (t, p)).2 v)) →
      (set_local_offset s t p v).callbacks = [])) ∧
    (((set_remote_offset s t p v).error = none ∧
        (store_get s (t, p)).1 ≠
          some (get_state_from_offsets (updated_remote (store_get s (t, p)).2 v)) →
      (set_remote_offset s t p v).callbacks =
        [⟨t, p, store_get s (t, p),
          (get_state_from_offsets (updated_remote (store_get s (t, p)).2 v),
           updated_remote (store_get s (t, p)).2 v)⟩]) ∧
     ((store_get s (t, p)).1 =
          some (get_state_from_offsets (updated_remote (store_get s (t, p)).2 v)) →
      (set_remote_offset s t p v).callbacks = [])) := by
  constructor
  · rcases hrec : store_get s (t, p) with ⟨ps, o⟩
    rw [set_local_error_eq s t p v ps o hrec,
      set_local_callbacks_eq s t p v ps o hrec]
    split_ifs with h1 h2
    · exact ⟨fun hc => absurd hc.1 (by simp), fun h => absurd h h1.1⟩
    · exact ⟨fun _ => rfl, fun h => absurd h h2⟩
    · exact ⟨fun hc => absurd hc.2 h2, fun _ => rfl⟩
  · rcases hrec : store_get s (t, p) with ⟨ps, o⟩
    rw [set_remote_error_eq s t p v ps o hrec,
      set_remote_callbacks_eq s t p v ps o hrec]
    split_ifs with h1 h2
    · exact ⟨fun hc => absurd hc.1 (by simp), fun h => absurd h h1.1⟩
    · exact ⟨fun _ => rfl, fun h => absurd h h2⟩
    · exact ⟨fun hc => absurd hc.2 h2, fun _ => rfl⟩

/-- Witness for C5: the first local update of a fresh key changes the state
from NONE to UNKNOWN and fires the callback exactly once with the
before/after snapshots. -/
theorem callback_spec_witness :
    (set_local_offset [] "events" 0 5).callbacks =
      [⟨"events", 0, (none, ⟨none, none⟩),
        (PartitionState.UNKNOWN, ⟨some 5, none⟩)⟩] :=
  (callback_spec [] "events" 0 5).1.1 ⟨by decide, by decide⟩

/-- C7: a successful `set_local_offset` stores offsets whose local side is
the given value and whose remote side is the previously stored remote side
(symmetrically for `set_remote_offset`), and both operations leave the
records of every other key unchanged. -/
theorem offset_update_frame (s : Store) (t : String) (p v : Int) :
    (((set_local_offset s t p v).error = none →
       store_get (set_local_offset s t p v).partitions (t, p) =
         (some (get_state_from_offsets ⟨some v, (store_get s (t, p)).2.remote⟩),
          ⟨some v, (store_get s (t, p)).2.remote⟩)) ∧
      ∀ k, k ≠ (t, p) →
        store_lookup (set_local_offset s t p v).partitions k = store_lookup s k) ∧
    (((set_remote_offset s t p v).error = none →
       store_get (set_remote_offset s t p v).partitions (t, p) =
         (some (get_state_from_offsets ⟨(store_get s (t, p)).2.loc, some v⟩),
          ⟨(store_get s (t, p)).2.loc, some v⟩)) ∧
      ∀ k, k ≠ (t, p) →
        store_lookup (set_remote_offset s t p v).partitions k = store_lookup s k) := by
  constructor
  · rcases hrec : store_get s (t, p) with ⟨ps, o⟩
    rw [set_local_error_eq s t p v ps o hrec,
      set_local_partitions_eq s t p v ps o hrec]
    split_ifs with h1
    · exact ⟨fun he => absurd he (by simp),
        fun k hk => store_lookup_dd_other s (t, p) k hk⟩
    · exact ⟨fun _ => by simp [store_get, store_lookup_set_self, updated_local],
        fun k hk => by
          rw [store_lookup_set_other _ _ _ _ hk, store_lookup_dd_other s (t, p) k hk]⟩
  · rcases hrec : store_get s (t, p) with ⟨ps, o⟩
    rw [set_remote_error_eq s t p v ps o hrec,
      set_remote_partitions_eq s t p v ps o hrec]
    split_ifs with h1
    · exact ⟨fun he => absurd he (by simp),
        fun k hk => store_lookup_dd_other s (t, p) k hk⟩
    · exact ⟨fun _ => by simp [store_get, store_lookup_set_self, updated_remote],
        fun k hk => by
          rw [store_lookup_set_other _ _ _ _ hk, store_lookup_dd_other s (t, p) k hk]⟩

/-- Witness for C7: updating the local side to 5 while the remote side is 9
stores `(some 5, some 9)`, carrying the remote side forward. -/
theorem offset_update_frame_witness :
    store_get (set_local_offset
        [(("events", 0), (some PartitionState.LOCAL_BEHIND, ⟨some 3, some 9⟩))]
        "events" 0 5).partitions ("events", 0) =
      (some (get_state_from_offsets ⟨some 5, some 9⟩), ⟨some 5, some 9⟩) :=
  (offset_update_frame
      [(("events", 0), (some PartitionState.LOCAL_BEHIND, ⟨some 3, some 9⟩))]
      "events" 0 5).1.1 (by decide)

/-- C6 counterexample: `validate_local_message` on a key never touched by the
set operations does create a record for that key — the `defaultdict` access
inserts the default record before the state check raises InvalidState. -/
theorem validate_creates_record_cex :
    store_lookup ([] : Store) ("events", 0) = none ∧
    store_lookup (validate_local_message ([] : Store) "events" 0 0).partitions
        ("events", 0) = some defaultRecord := by
  decide

/-- C6 (amended): `validate_local_message` never changes the record observed
for any key and leaves every existing record untouched; however, calling it
on a never-seen key inserts the default record (state NONE, both offsets
absent) for that key, because the auto-vivifying mapping creates it on
access. -/
theorem validate_frame_amended (s : Store) (t : String) (p off : Int) :
    (∀ k, store_get (validate_local_message s t p off).partitions k =
      store_get s k) ∧
    (store_lookup s (t, p) = none →
      (validate_local_message s t p off).partitions =
        s ++ [((t, p), defaultRecord)]) ∧
    (store_lookup s (t, p) ≠ none →
      (validate_local_message s t p off).partitions = s) := by
  rw [validate_partitions_eq]
  refine ⟨fun k => store_get_dd s (t, p) k, fun h => ?_, fun h => ?_⟩
  · unfold dd_getitem
    rw [h]
  · unfold dd_getitem
    cases hL : store_lookup s (t, p) with
    | some r => rfl
    | none => exact absurd hL h

/-- Witness for C6 (amended): on the empty store, the call appends exactly
the default record for the probed key. -/
theorem validate_frame_amended_witness :
    (validate_local_message ([] : Store) "events" 0 0).partitions =
      ([] : Store) ++ [((("events" : String), (0 : Int)), defaultRecord)] :=
  (validate_frame_amended [] "events" 0 0).2.1 rfl

/-- C8: a set call with a value strictly below the previously stored offset
on the same side does not raise a backward-movement error: the anomaly is
only logged, and (the stored record being state-consistent, as every record
the manager itself stores is) the call succeeds, recomputing and storing
state and offsets from the new lower value exactly as for any other value. -/
theorem backward_offset_nonfatal (s : Store) (t : String) (p v : Int) :
    (∀ st o p0, store_lookup s (t, p) = some (some st, o) →
      st = get_state_from_offsets o → o.loc = some p0 → v < p0 →
      (set_local_offset s t p v).error = none ∧
      (set_local_offset s t p v).logs.head? =
        some (LogEvent.localOffsetMovedBackwards v p0) ∧
      store_get (set_local_offset s t p v).partitions (t, p) =
        (some (get_state_from_offsets ⟨some v, o.remote⟩),
         ⟨some v, o.remote⟩)) ∧
    (∀ st o r0, store_lookup s (t, p) = some (some st, o) →
      st = get_state_from_offsets o → o.remote = some r0 → v < r0 →
      (set_remote_offset s t p v).error = none ∧
      (set_remote_offset s t p v).logs.head? =
        some (LogEvent.remoteOffsetMovedBackwards v r0) ∧
      store_get (set_remote_offset s t p v).partitions (t, p) =
        (some (get_state_from_offsets ⟨o.loc, some v⟩),
         ⟨o.loc, some v⟩)) := by
  constructor
  · intro st o p0 hL hst hloc hv
    have hrec : store_get s (t, p) = (some st, o) := by
      unfold store_get
      rw [hL]
      rfl
    have hok := set_local_no_trans_error (some st) o v
      (Or.inr (congrArg some hst))
    refine ⟨?_, set_local_logs_head s t p v (some st) o hrec p0 hloc hv, ?_⟩
    · rw [set_local_error_eq s t p v (some st) o hrec, if_neg hok]
    · rw [set_local_partitions_eq s t p v (some st) o hrec, if_neg hok]
      simp [store_get, store_lookup_set_self, updated_local]
  · intro st o r0 hL hst hrem hv
    have hrec : store_get s (t, p) = (some st, o) := by
      unfold store_get
      rw [hL]
      rfl
    have hok := set_remote_no_trans_error (some st) o v
      (Or.inr (congrArg some hst))
    refine ⟨?_, set_remote_logs_head s t p v (some st) o hrec r0 hrem hv, ?_⟩
    · rw [set_remote_error_eq s t p v (some st) o hrec, if_neg hok]
    · rw [set_remote_partitions_eq s t p v (some st) o hrec, if_neg hok]
      simp [store_get, store_lookup_set_self, updated_remote]

/-- Witness for C8: moving the local offset back from 100 to 40 while
SYNCHRONIZED succeeds, logs the anomaly, and stores the recomputed record. -/
theorem backward_offset_nonfatal_witness :
    (set_local_offset
        [(("events", 0), (some PartitionState.SYNCHRONIZED, ⟨some 100, some 100⟩))]
        "events" 0 40).error = none ∧
    (set_local_offset
        [(("events", 0), (some PartitionState.SYNCHRONIZED, ⟨some 100, some 100⟩))]
        "events" 0 40).logs.head? =
      some (LogEvent.localOffsetMovedBackwards 40 100) ∧
    store_get (set_local_offset
        [(("events", 0), (some PartitionState.SYNCHRONIZED, ⟨some 100, some 100⟩))]
        "events" 0 40).partitions ("events", 0) =
      (some (get_state_from_offsets ⟨some 40, some 100⟩), ⟨some 40, some 100⟩) :=
  (backward_offset_nonfatal
      [(("events", 0), (some PartitionState.SYNCHRONIZED, ⟨some 100, some 100⟩))]
      "events" 0 40).1 PartitionState.SYNCHRONIZED ⟨some 100, some 100⟩ 100
    (by decide) (by decide) rfl (by decide)

/-- C9: starting from the fresh store, no sequential sequence of
`set_local_offset` / `set_remote_offset` calls, over any keys and offset
values, ever raises InvalidStateTransition. -/
theorem no_invalid_transition_reachable (ops : List Op) :
    (runOps ops ([] : Store)).isSome = true :=
  runOps_inv_isSome ops [] (fun _ _ h => Option.noConfusion h)

/-- C10: once both offset sides are present for a key (its state being the
one derived from them, as for every record the manager stores), any further
set call leaves both sides present, so the state never returns to UNKNOWN
or NONE. -/
theorem both_present_persistent (s : Store) (op : Op) (t : String) (p : Int)
    (st : PartitionState) (l r : Int)
    (hrec : store_get s (t, p) = (some st, ⟨some l, some r⟩))
    (hst : st = get_state_from_offsets ⟨some l, some r⟩) :
    ∃ st2 l2 r2,
      store_get (applyOp s op).partitions (t, p) =
        (some st2, ⟨some l2, some r2⟩) ∧
      st2 = get_state_from_offsets ⟨some l2, some r2⟩ ∧
      st2 ≠ PartitionState.UNKNOWN := by
  cases op with
  | setLocal t2 p2 v =>
      simp only [applyOp]
      by_cases hk : (t, p) = ((t2 : String), (p2 : Int))
      · obtain ⟨ht, hp⟩ := Prod.mk.injEq .. ▸ hk
        subst ht
        subst hp
        have hok := set_local_no_trans_error (some st) ⟨some l, some r⟩ v
          (Or.inr (congrArg some hst))
        rw [set_local_partitions_eq s t p v (some st) ⟨some l, some r⟩ hrec,
          if_neg hok]
        refine ⟨get_state_from_offsets ⟨some v, some r⟩, v, r, ?_, rfl,
          derive_both_ne_unknown v r⟩
        simp [store_get, store_lookup_set_self, updated_local]
      · rcases hrec2 : store_get s (t2, p2) with ⟨ps2, o2⟩
        rw [set_local_partitions_eq s t2 p2 v ps2 o2 hrec2]
        refine ⟨st, l, r, ?_, hst, by rw [hst]; exact derive_both_ne_unknown l r⟩
        split_ifs with h1
        · rw [store_get_dd s (t2, p2) (t, p)]
          exact hrec
        · unfold store_get
          rw [store_lookup_set_other _ _ _ _ hk,
            store_lookup_dd_other s (t2, p2) (t, p) hk]
          exact hrec
  | setRemote t2 p2 v =>
      simp only [applyOp]
      by_cases hk : (t, p) = ((t2 : String), (p2 : Int))
      · obtain ⟨ht, hp⟩ := Prod.mk.injEq .. ▸ hk
        subst ht
        subst hp
        have hok := set_remote_no_trans_error (some st) ⟨some l, some r⟩ v
          (Or.inr (congrArg some hst))
        rw [set_remote_partitions_eq s t p v (some st) ⟨some l, some r⟩ hrec,
          if_neg hok]
        refine ⟨get_state_from_offsets ⟨some l, some v⟩, l, v, ?_, rfl,
          derive_both_ne_unknown l v⟩
        simp [store_get, store_lookup_set_self, updated_remote]
      · rcases hrec2 : store_get s (t2, p2) with ⟨ps2, o2⟩
        rw [set_remote_partitions_eq s t2 p2 v ps2 o2 hrec2]
        refine ⟨st, l, r, ?_, hst, by rw [hst]; exact derive_both_ne_unknown l r⟩
        split_ifs with h1
        · rw [store_get_dd s (t2, p2) (t, p)]
          exact hrec
        · unfold store_get
          rw [store_lookup_set_other _ _ _ _ hk,
            store_lookup_dd_other s (t2, p2) (t, p) hk]
          exact hrec

/-- Witness for C10: with both sides present (1 and 5), a later local update
to 3 keeps both sides present and a non-UNKNOWN state. -/
theorem both_present_persistent_witness :
    ∃ st2 l2 r2,
      store_get (applyOp
          [(("events", 0), (some PartitionState.LOCAL_BEHIND, ⟨some 1, some 5⟩))]
          (Op.setLocal "events" 0 3)).partitions ("events", 0) =
        (some st2, ⟨some l2, some r2⟩) ∧
      st2 = get_state_from_offsets ⟨some l2, some r2⟩ ∧
      st2 ≠ PartitionState.UNKNOWN :=
  both_present_persistent
    [(("events", 0), (some PartitionState.LOCAL_BEHIND, ⟨some 1, some 5⟩))]
    (Op.setLocal "events" 0 3) "events" 0 PartitionState.LOCAL_BEHIND 1 5
    (by decide) (by decide)
